import Mathlib

set_option maxRecDepth 8000

/-!
Shallow embedding of `src/radio/radio.py` (TEA5767 FM tuner driver).

Representation of numbers.  The source computes with Python floats whose
values are short decimal literals (87.5, 108.0, 0.1, 96.6, 0.05) and with
exact integers (the PLL arithmetic).  Every frequency this development
manipulates is an exact multiple of 0.001 MHz, so frequencies are embedded as
integers in kHz (1 kHz = 0.001 MHz): `87.5` MHz is `87500`, the step `0.1`
is `100`, the preset tolerance `0.05` is `50`, and `round(f, 1)` /
`round(x, 3)` become rounding to multiples of 100 kHz / 1 kHz.  For each
value reached by the theorems below, the double-precision computation of the
source and the exact computation agree: the deciding quantities stay at
distance ≥ 1e-3 (relative to the relevant truncation/rounding boundary) from
every boundary while the accumulated float error is ≤ 1e-8.

Locks and sleeps.  `threading.Lock` acquisition and `time.sleep` have no
effect on the data computed, so the functional layer below treats them as
no-ops; the lock structure of each operation is modelled separately as an
event trace (section `Traces`), reflecting the order of lock, bus and
state-field events in the source.

Failures.  `raw_write5`/`raw_read5` can raise on I/O failure.  The bus is
modelled with two failure switches; a raised error is an `Except.error`
result, and each operation returns the (soft state, bus, result) triple that
the corresponding Python function leaves behind — including the global
variables it assigned before the exception was raised.

Divergence.  One path never terminates: `step`'s seeding branch (taken when
`_current_freq` is `None`) calls `read_status()` while `_state_lock` is
already held, and `read_status` re-acquires that non-reentrant lock, so the
call blocks forever before the seed assignment.  `step` and the
operation-sequence runners therefore return `Option` values, with `none`
standing for that divergence (no final state exists).
-/

namespace Radio

/-- Round-half-to-even of the exact quotient `x / d` (`d > 0`): the rounding
performed by Python's builtin `round` on the exact values reached here. -/
def roundHalfEvenDiv (x : ℤ) (d : ℤ) : ℤ :=
  let f := x.fdiv d
  let r := x - f * d
  if 2 * r < d then f
  else if d < 2 * r then f + 1
  else if f % 2 = 0 then f else f + 1

/-- Python `round(f_mhz, 1)` on a kHz fixed-point frequency: nearest
multiple of 100 kHz (= 0.1 MHz). -/
def pyRound1 (f : ℤ) : ℤ := 100 * roundHalfEvenDiv f 100

/-- Python `round(hz / 1_000_000.0, 3)` expressed in kHz: nearest integer
number of kHz. -/
def pyRound3ofHz (hz : ℤ) : ℤ := roundHalfEvenDiv hz 1000

-- ------------ TEA5767 logic (radio.py lines 51-59) ------------

def FREQ_MIN : ℤ := 87500      -- 87.5 MHz
def FREQ_MAX : ℤ := 108000     -- 108.0 MHz
def STEP : ℤ := 100            -- 0.1 MHz
def DE_EMPHASIS : ℕ := 50      -- µs

/-- A 5-byte register frame (`raw_write5` rejects any other length, and the
byte values produced by the codec are single bytes). -/
structure Frame where
  b0 : ℕ
  b1 : ℕ
  b2 : ℕ
  b3 : ℕ
  b4 : ℕ
deriving DecidableEq

inductive BusError
  | busError
deriving DecidableEq

/-- The I2C bus together with the chip behind it.  `chip` holds the last
5-byte frame written to the device; a status read returns those register
bytes.  The two switches make a transaction fail (raise `BusError`). -/
structure Bus where
  chip : Frame
  readFails : Bool
  writeFails : Bool
deriving DecidableEq

/-- `raw_write5` (radio.py 29-38): one serialized write transaction. -/
def raw_write5 (bus : Bus) (b : Frame) : Except BusError Bus :=
  if bus.writeFails then .error .busError else .ok { bus with chip := b }

/-- `raw_read5` (radio.py 40-48): one serialized read transaction. -/
def raw_read5 (bus : Bus) : Except BusError Frame :=
  if bus.readFails then .error .busError else .ok bus.chip

/-- Soft state: the module-level globals `_current_freq`, `_forced_mono`,
`_muted` (radio.py 57-59). -/
structure Soft where
  current_freq : Option ℤ
  forced_mono : Bool
  muted : Bool
deriving DecidableEq

/-- `freq_to_pll` (radio.py 128-129): `int(4 * ((freq*1e6) + 225_000) / 32_768)`
with the frequency given in kHz, so `freq * 1e6` Hz is `1000 * f`.
`Int.tdiv` is Python `int()` of the quotient: truncation toward zero. -/
def freq_to_pll (f : ℤ) : ℤ :=
  Int.tdiv (4 * (1000 * f + 225000)) 32768

/-- `clamp_freq` (radio.py 131-132): `max(FREQ_MIN, min(FREQ_MAX, round(f, 1)))`. -/
def clamp_freq (f : ℤ) : ℤ :=
  max FREQ_MIN (min FREQ_MAX (pyRound1 f))

/-- The frame built by `set_frequency` (radio.py 134-145) before it is
written.  `b2 &= ~(1<<7)` on the byte value `0xB0` is masking with `0x7F`. -/
def set_frequency_frame (freq : ℤ) (mute : Bool) (stereo : Bool)
    (de_emphasis_us : ℕ) : Frame :=
  let pll := (freq_to_pll freq).toNat
  let b0 := (pll >>> 8) &&& 0x3F
  let b0 := if mute then b0 ||| 0x80 else b0
  let b1 := pll &&& 0xFF
  let b2 := if stereo then 0xB0 else 0xB0 &&& 0x7F
  let b3 := if de_emphasis_us = 50 then 0x10 else 0x00
  ⟨b0, b1, b2, b3, 0x00⟩

/-- `set_frequency` (radio.py 134-146): build the frame and write it
(`time.sleep(0.12)` is a no-op in the model). -/
def set_frequency (bus : Bus) (freq : ℤ) (mute : Bool) (stereo : Bool)
    (de_emphasis_us : ℕ) : Except BusError Bus :=
  raw_write5 bus (set_frequency_frame freq mute stereo de_emphasis_us)

/-- The write frame `_apply_current_pll` (radio.py 148-158) reconstructs from
a read frame `s` and then passes to its `modify` argument. -/
def apply_current_pll_frame (s : Frame) (modify : Frame → Frame) : Frame :=
  let pll_high := s.b0 &&& 0x3F
  let pll_low := s.b1
  let b3 := if DE_EMPHASIS = 50 then 0x10 else 0x00
  modify ⟨pll_high, pll_low, 0xB0, b3, 0x00⟩

/-- `_apply_current_pll` (radio.py 148-159): read the current frame, rebuild
the write frame, apply `modify`, write back (`time.sleep(0.05)` dropped). -/
def apply_current_pll (bus : Bus) (modify : Frame → Frame) :
    Except BusError Bus :=
  match raw_read5 bus with
  | .error e => .error e
  | .ok s => raw_write5 bus (apply_current_pll_frame s modify)

/-- The mutator of `mute` (radio.py 163): `b0 | 0x80`. -/
def muteMod (fr : Frame) : Frame := { fr with b0 := fr.b0 ||| 0x80 }

/-- The mutator of `unmute` (radio.py 169): `b0 & ~0x80` on a byte. -/
def unmuteMod (fr : Frame) : Frame := { fr with b0 := fr.b0 &&& 0x7F }

/-- The mutator of `set_mono` (radio.py 174): `b2 & ~(1<<7)` on a byte. -/
def monoMod (fr : Frame) : Frame := { fr with b2 := fr.b2 &&& 0x7F }

/-- The mutator of `set_stereo` (radio.py 178): `b2 | (1<<7)`. -/
def stereoMod (fr : Frame) : Frame := { fr with b2 := fr.b2 ||| 0x80 }

/-- `mute` (radio.py 161-165): modify-write, then set `_muted = True`.
On a raised `BusError` the assignment is never reached. -/
def mute (st : Soft) (bus : Bus) : Soft × Bus × Except BusError Unit :=
  match apply_current_pll bus muteMod with
  | .error e => (st, bus, .error e)
  | .ok bus' => ({ st with muted := true }, bus', .ok ())

/-- `unmute` (radio.py 167-171). -/
def unmute (st : Soft) (bus : Bus) : Soft × Bus × Except BusError Unit :=
  match apply_current_pll bus unmuteMod with
  | .error e => (st, bus, .error e)
  | .ok bus' => ({ st with muted := false }, bus', .ok ())

/-- `set_mono` (radio.py 173-175): touches no soft state. -/
def set_mono (bus : Bus) : Except BusError Bus :=
  apply_current_pll bus monoMod

/-- `set_stereo` (radio.py 177-179). -/
def set_stereo (bus : Bus) : Except BusError Bus :=
  apply_current_pll bus stereoMod

/-- The dictionary returned by `read_status` (radio.py 191-198). -/
structure Status where
  if_ready : Bool
  stereo : Bool
  signal : ℕ
  frequency : ℤ       -- kHz; source: MHz rounded to 3 decimals
  muted : Bool
  raw : Frame
deriving DecidableEq

/-- The frequency decode of `read_status` (radio.py 186-188):
`pll = ((s[0] & 0x3F) << 8) | s[1]`, `freq_hz = pll * 32_768 // 4 - 225_000`,
then rounding to 3 decimal MHz (= whole kHz). -/
def decode_frequency (s : Frame) : ℤ :=
  let pll := ((s.b0 &&& 0x3F) <<< 8) ||| s.b1
  let freq_hz : ℤ := (pll * 32768 / 4 : ℕ) - 225000
  pyRound3ofHz freq_hz

/-- `read_status` (radio.py 181-198): one bus read, pure decode, merge of
the soft `_muted` flag.  Mutates nothing. -/
def read_status (st : Soft) (bus : Bus) : Except BusError Status :=
  match raw_read5 bus with
  | .error e => .error e
  | .ok s =>
    .ok { if_ready := s.b0 &&& 0x80 != 0
          stereo := s.b2 &&& 0x80 != 0
          signal := (s.b3 >>> 4) &&& 0x0F
          frequency := decode_frequency s
          muted := st.muted
          raw := s }

/-- `tune_to` (radio.py 200-206): clamp, full write with `mute=False`,
`stereo = not _forced_mono`, then commit `_current_freq`. -/
def tune_to (st : Soft) (bus : Bus) (f : ℤ) : Soft × Bus × Except BusError ℤ :=
  let f' := clamp_freq f
  match set_frequency bus f' false (!st.forced_mono) DE_EMPHASIS with
  | .error e => (st, bus, .error e)
  | .ok bus' => ({ st with current_freq := some f' }, bus', .ok f')

/-- The body of `step` after the seeding check (radio.py 214-218).  Python's
`(_current_freq or 99.8)` falls back to 99.8 both when the field is `None`
and when it is `0.0` (float falsiness). -/
def step_core (st : Soft) (bus : Bus) (direction : String) :
    Soft × Bus × Except BusError ℤ :=
  let delta := if direction = "up" then STEP else -STEP
  let cur := match st.current_freq with
    | none => 99800
    | some c => if c = 0 then 99800 else c
  let newf := clamp_freq (cur + delta)
  match set_frequency bus newf false (!st.forced_mono) DE_EMPHASIS with
  | .error e => (st, bus, .error e)
  | .ok bus' => ({ st with current_freq := some newf }, bus', .ok newf)

/-- `step` (radio.py 208-218).  When `_current_freq` is set, the body is
`step_core`.  When it is `None`, `step` calls `read_status()` while already
holding `_state_lock` (acquired at radio.py 210): `read_status` first
performs its bus read (radio.py 182) — a raised `BusError` propagates with
no assignment made — and, if the read succeeds, then blocks forever
re-acquiring the non-reentrant `_state_lock` at radio.py 189.  The seed
assignment `_current_freq = st["frequency"]` at radio.py 213 is therefore
never reached: the operation diverges, modelled as `none`. -/
def step (st : Soft) (bus : Bus) (direction : String) :
    Option (Soft × Bus × Except BusError ℤ) :=
  match st.current_freq with
  | none =>
    match raw_read5 bus with
    | .error e => some (st, bus, .error e)
    | .ok _ => none
  | some _ => some (step_core st bus direction)

/-- `set_forced_mono` (radio.py 220-224): the global `_forced_mono` is
assigned before the modify-write is issued, so the flag is updated even when
the bus transaction fails. -/
def set_forced_mono (st : Soft) (bus : Bus) (flag : Bool) :
    Soft × Bus × Except BusError Unit :=
  let st' := { st with forced_mono := flag }
  match (if flag then set_mono bus else set_stereo bus) with
  | .error e => (st', bus, .error e)
  | .ok bus' => (st', bus', .ok ())

-- ------------ Presets (radio.py 116-125) ------------

/-- Python's `min(keys, key=lambda x: abs(x - freq))`: first key of the
iteration attaining the minimal distance (later keys replace the running
minimum only on strict improvement). -/
def minAbsKey (freq : ℤ) (hd : ℤ) (tl : List ℤ) : ℤ :=
  tl.foldl
    (fun best x => if (x - freq).natAbs < (best - freq).natAbs then x else best)
    hd

/-- Indexing `_PRESETS[nearest]`.  The preset dictionary is modelled as an
association list in insertion order with pairwise-distinct keys; indexing
with a key that is absent would raise in Python and is unreachable below
(the minimum of the key list is itself a key). -/
def presetIndex (table : List (ℤ × String)) (k : ℤ) : String :=
  match table.find? (fun p => p.1 == k) with
  | some p => p.2
  | none => "Unknown"

/-- `station_name_for` (radio.py 120-125), tolerance `0.05` MHz = 50 kHz. -/
def station_name_for (table : List (ℤ × String)) (freq : ℤ) : String :=
  match table with
  | [] => "Unknown"
  | (k₀, _) :: rest =>
    let nearest := minAbsKey freq k₀ (rest.map Prod.fst)
    if (nearest - freq).natAbs ≤ 50 then presetIndex table nearest
    else "Unknown"

-- ------------ Operation sequences ------------

/-- `step` iterated `n` times in one direction, threading soft state and
bus (the returned committed frequency is dropped); `none` once any
iteration diverges. -/
def stepN (st : Soft) (bus : Bus) (direction : String) : ℕ → Option (Soft × Bus)
  | 0 => some (st, bus)
  | n + 1 =>
    match stepN st bus direction n with
    | none => none
    | some r =>
      match step r.1 r.2 direction with
      | none => none
      | some r' => some (r'.1, r'.2.1)

/-- One invocation of the public tuner surface. -/
inductive Op
  | tuneTo (f : ℤ)
  | stepDir (direction : String)
  | muteOp
  | unmuteOp
  | setForcedMono (flag : Bool)
  | readStatusOp
deriving DecidableEq

/-- The soft state and bus left behind by one completed operation
(`read_status` mutates neither); `none` when the operation diverges
(`step`'s seeding path). -/
def runOp (st : Soft) (bus : Bus) : Op → Option (Soft × Bus)
  | .tuneTo f => some ((tune_to st bus f).1, (tune_to st bus f).2.1)
  | .stepDir d =>
    match step st bus d with
    | none => none
    | some r => some (r.1, r.2.1)
  | .muteOp => some ((mute st bus).1, (mute st bus).2.1)
  | .unmuteOp => some ((unmute st bus).1, (unmute st bus).2.1)
  | .setForcedMono b =>
      some ((set_forced_mono st bus b).1, (set_forced_mono st bus b).2.1)
  | .readStatusOp => some (st, bus)

/-- Run a sequence of operations from the given soft state and bus;
`none` once any operation diverges. -/
def runOps : Soft → Bus → List Op → Option (Soft × Bus)
  | st, bus, [] => some (st, bus)
  | st, bus, op :: rest =>
    match runOp st bus op with
    | none => none
    | some r => runOps r.1 r.2 rest

/-- The spec's soft-state invariant: `current_frequency`, when present,
lies in `[87.5, 108.0]` MHz and is a multiple of 0.1 MHz. -/
def freqInvariant (st : Soft) : Prop :=
  ∀ f, st.current_freq = some f → 87500 ≤ f ∧ f ≤ 108000 ∧ (100 : ℤ) ∣ f

-- ------------ Traces: lock and bus structure of each operation ------------

/-- Events in source order: lock acquisition/release of the two module-level
locks, the phases of one bus transaction (radio.py 29-48), and assignments
to the three soft-state globals. -/
inductive Ev
  | lockBus | unlockBus
  | openDev | setAddr
  | busWrite (fr : Frame) | busRead
  | closeDev
  | lockState | unlockState
  | setFreqField (f : Option ℤ)
  | setMonoField (b : Bool)
  | setMutedField (b : Bool)
deriving DecidableEq

/-- `raw_write5` (radio.py 29-38): `with _i2c_lock:` around open, address,
5-byte write, close. -/
def raw_write5_tr (fr : Frame) : List Ev :=
  [.lockBus, .openDev, .setAddr, .busWrite fr, .closeDev, .unlockBus]

/-- `raw_read5` (radio.py 40-48). -/
def raw_read5_tr : List Ev :=
  [.lockBus, .openDev, .setAddr, .busRead, .closeDev, .unlockBus]

/-- `read_status` (radio.py 181-198): a bus read, then
`with _state_lock: muted = _muted`. -/
def read_status_tr : List Ev :=
  raw_read5_tr ++ [.lockState, .unlockState]

/-- `tune_to` (radio.py 200-206), success path: the whole write and the
`_current_freq` assignment inside `with _state_lock:`.  `s` is unused
because `tune_to` performs no read. -/
def tune_to_tr (st : Soft) (f : ℤ) : List Ev :=
  [.lockState]
    ++ raw_write5_tr
        (set_frequency_frame (clamp_freq f) false (!st.forced_mono) DE_EMPHASIS)
    ++ [.setFreqField (some (clamp_freq f)), .unlockState]

/-- `step` (radio.py 208-218): the lock, bus and assignment events in source
order, given the frame `s` a seeding status read would return.  When
`_current_freq` is `None`, `read_status` runs inside the already-held
non-reentrant `_state_lock`: execution blocks at the inner `lockState` event
(detected by `relocksState` below) and the events listed after it are never
issued. -/
def step_tr (st : Soft) (s : Frame) (direction : String) : List Ev :=
  let seed : List Ev × ℤ :=
    match st.current_freq with
    | none => (read_status_tr ++ [.setFreqField (some (decode_frequency s))],
               decode_frequency s)
    | some c => ([], c)
  let cur := if seed.2 = 0 then 99800 else seed.2
  let delta := if direction = "up" then STEP else -STEP
  let newf := clamp_freq (cur + delta)
  [.lockState] ++ seed.1
    ++ raw_write5_tr (set_frequency_frame newf false (!st.forced_mono) DE_EMPHASIS)
    ++ [.setFreqField (some newf), .unlockState]

/-- `mute` (radio.py 161-165), success path: the read-modify-write runs
before the state lock is taken; only the `_muted = True` assignment is under
`_state_lock`.  `s` is the frame returned by the read. -/
def mute_tr (s : Frame) : List Ev :=
  raw_read5_tr ++ raw_write5_tr (apply_current_pll_frame s muteMod)
    ++ [.lockState, .setMutedField true, .unlockState]

/-- `unmute` (radio.py 167-171), success path. -/
def unmute_tr (s : Frame) : List Ev :=
  raw_read5_tr ++ raw_write5_tr (apply_current_pll_frame s unmuteMod)
    ++ [.lockState, .setMutedField false, .unlockState]

/-- `set_forced_mono` (radio.py 220-224), success path: the `_forced_mono`
assignment and the modify-write happen with no state lock at all. -/
def set_forced_mono_tr (s : Frame) (flag : Bool) : List Ev :=
  [.setMonoField flag]
    ++ raw_read5_tr
    ++ raw_write5_tr
        (apply_current_pll_frame s (if flag then monoMod else stereoMod))

/-- The operation holds the state lock for its full duration: the trace
begins by acquiring it and ends by releasing it. -/
def wrappedInStateLock (tr : List Ev) : Bool :=
  tr.head? == some .lockState && tr.getLast? == some .unlockState

/-- Every bus transaction in the trace is a serialized block: the bus events
of the trace are a concatenation of `lock, open, address, transfer, close,
unlock` blocks, the single bus lock held across each whole block. -/
def busSerialized : List Ev → Bool
  | [] => true
  | .lockBus :: .openDev :: .setAddr :: .busWrite _ :: .closeDev :: .unlockBus :: rest =>
      busSerialized rest
  | .lockBus :: .openDev :: .setAddr :: .busRead :: .closeDev :: .unlockBus :: rest =>
      busSerialized rest
  | .lockState :: rest => busSerialized rest
  | .unlockState :: rest => busSerialized rest
  | .setFreqField _ :: rest => busSerialized rest
  | .setMonoField _ :: rest => busSerialized rest
  | .setMutedField _ :: rest => busSerialized rest
  | _ => false

/-- The trace acquires `_state_lock` while already holding it.  The module's
`_state_lock` is a plain non-reentrant `threading.Lock`, so such a trace
blocks itself forever. -/
def relocksState : List Ev → Bool → Bool
  | [], _ => false
  | .lockState :: rest, held => held || relocksState rest true
  | .unlockState :: rest, _ => relocksState rest false
  | _ :: rest, held => relocksState rest held

-- ------------ Helper lemmas ------------

lemma and63_lt (x : ℕ) : x &&& 63 < 64 :=
  Nat.lt_succ_of_le Nat.and_le_right

lemma lor128_and63 : ∀ y < 64, (y ||| 128) &&& 63 = y := by decide

lemma and63_and63 (x : ℕ) : (x &&& 63) &&& 63 = x &&& 63 := by
  rw [Nat.and_assoc]
  congr 1

lemma and63_and128 (x : ℕ) : (x &&& 63) &&& 128 = 0 := by
  rw [Nat.and_assoc]
  exact Nat.and_zero x

lemma lor128_lt256 : ∀ y < 64, y ||| 128 < 256 := by decide

lemma pyRound1_of_dvd (f : ℤ) (h : (100 : ℤ) ∣ f) : pyRound1 f = f := by
  obtain ⟨m, rfl⟩ := h
  have hf : (100 * m).fdiv 100 = m := Int.mul_fdiv_cancel_left m (by norm_num)
  simp only [pyRound1, roundHalfEvenDiv, hf]
  have h0 : 100 * m - m * 100 = 0 := by ring
  rw [h0]
  norm_num

lemma clamp_freq_of_dvd {f : ℤ} (h : (100 : ℤ) ∣ f) :
    clamp_freq f = max 87500 (min 108000 f) := by
  rw [clamp_freq, pyRound1_of_dvd f h, FREQ_MIN, FREQ_MAX]

lemma clamp_freq_mem (f : ℤ) :
    87500 ≤ clamp_freq f ∧ clamp_freq f ≤ 108000 ∧ (100 : ℤ) ∣ clamp_freq f := by
  rw [clamp_freq, pyRound1, FREQ_MIN, FREQ_MAX]
  omega

lemma raw_write5_ok {bus : Bus} (h : bus.writeFails = false) (fr : Frame) :
    raw_write5 bus fr = .ok { bus with chip := fr } := by
  rw [raw_write5, h]
  rfl

lemma raw_read5_ok {bus : Bus} (h : bus.readFails = false) :
    raw_read5 bus = .ok bus.chip := by
  rw [raw_read5, h]
  rfl

lemma set_frequency_ok {bus : Bus} (h : bus.writeFails = false)
    (f : ℤ) (m s : Bool) (d : ℕ) :
    set_frequency bus f m s d
      = .ok { bus with chip := set_frequency_frame f m s d } :=
  raw_write5_ok h _

lemma tune_to_ok {bus : Bus} (h : bus.writeFails = false) (st : Soft) (f : ℤ) :
    tune_to st bus f
      = ({ st with current_freq := some (clamp_freq f) },
         { bus with chip :=
            set_frequency_frame (clamp_freq f) false (!st.forced_mono) DE_EMPHASIS },
         .ok (clamp_freq f)) := by
  rw [tune_to, set_frequency_ok h]

lemma apply_current_pll_ok {bus : Bus} (hr : bus.readFails = false)
    (hw : bus.writeFails = false) (modify : Frame → Frame) :
    apply_current_pll bus modify
      = .ok { bus with chip := apply_current_pll_frame bus.chip modify } := by
  rw [apply_current_pll, raw_read5_ok hr]
  exact raw_write5_ok hw _

lemma raw_write5_err {bus : Bus} (h : bus.writeFails = true) (fr : Frame) :
    raw_write5 bus fr = .error .busError := by
  rw [raw_write5, h]
  rfl

lemma raw_read5_err {bus : Bus} (h : bus.readFails = true) :
    raw_read5 bus = .error .busError := by
  rw [raw_read5, h]
  rfl

lemma apply_current_pll_err {bus : Bus}
    (h : bus.readFails = true ∨ bus.writeFails = true) (m : Frame → Frame) :
    apply_current_pll bus m = .error .busError := by
  cases hb : bus.readFails with
  | true => rw [apply_current_pll, raw_read5_err hb]
  | false =>
    have hw : bus.writeFails = true := by
      rcases h with h | h
      · rw [hb] at h; exact absurd h (by decide)
      · exact h
    rw [apply_current_pll, raw_read5_ok hb]
    exact raw_write5_err hw _

lemma tune_to_err {bus : Bus} (hw : bus.writeFails = true) (st : Soft) (f : ℤ) :
    tune_to st bus f = (st, bus, .error .busError) := by
  simp [tune_to, set_frequency, raw_write5_err hw]

lemma mute_err {bus : Bus} (h : bus.readFails = true ∨ bus.writeFails = true)
    (st : Soft) : mute st bus = (st, bus, .error .busError) := by
  simp [mute, apply_current_pll_err h]

lemma unmute_err {bus : Bus} (h : bus.readFails = true ∨ bus.writeFails = true)
    (st : Soft) : unmute st bus = (st, bus, .error .busError) := by
  simp [unmute, apply_current_pll_err h]

lemma set_forced_mono_err {bus : Bus}
    (h : bus.readFails = true ∨ bus.writeFails = true) (st : Soft) (flag : Bool) :
    set_forced_mono st bus flag
      = ({ st with forced_mono := flag }, bus, .error .busError) := by
  cases flag <;>
    simp [set_forced_mono, set_mono, set_stereo, apply_current_pll_err h]

-- ------------ C2 ------------

/-- C2: for every frequency `f = 87.5 + 0.1·n` MHz (`n < 206`) of the band
grid, the PLL word of the encoder is a 14-bit unsigned integer, and decoding
the frame encoded with `mute=false`, `stereo=true`, de-emphasis 50 µs
returns a frequency within 0.05 MHz (50 kHz) of `f`. -/
theorem pll_roundtrip_14bit :
    ∀ n : ℕ, n < 206 →
      0 ≤ freq_to_pll (87500 + 100 * n) ∧
      (freq_to_pll (87500 + 100 * n)).toNat < 16384 ∧
      (decode_frequency (set_frequency_frame (87500 + 100 * n) false true 50)
          - (87500 + 100 * n)).natAbs ≤ 50 := by
  decide

/-- Witness for C2 at `n = 91`, i.e. `f = 96.6` MHz. -/
theorem pll_roundtrip_14bit_witness :
    0 ≤ freq_to_pll (87500 + 100 * 91) ∧
    (freq_to_pll (87500 + 100 * 91)).toNat < 16384 ∧
    (decode_frequency (set_frequency_frame (87500 + 100 * 91) false true 50)
        - (87500 + 100 * 91)).natAbs ≤ 50 :=
  pll_roundtrip_14bit 91 (by decide)

-- ------------ C3 ------------

lemma step_some {st : Soft} {c : ℤ} (hc : st.current_freq = some c)
    (bus : Bus) (d : String) : step st bus d = some (step_core st bus d) := by
  rw [step, hc]

lemma step_some_err {bus : Bus} (hw : bus.writeFails = true) {st : Soft}
    {c : ℤ} (hc : st.current_freq = some c) (d : String) :
    step st bus d = some (st, bus, .error .busError) := by
  rw [step_some hc]
  simp [step_core, set_frequency, raw_write5_err hw]

lemma step_none_read_err {bus : Bus} (hr : bus.readFails = true) {st : Soft}
    (hc : st.current_freq = none) (d : String) :
    step st bus d = some (st, bus, .error .busError) := by
  rw [step, hc, raw_read5_err hr]

lemma step_none_deadlock {bus : Bus} (hr : bus.readFails = false) {st : Soft}
    (hc : st.current_freq = none) (d : String) : step st bus d = none := by
  rw [step, hc, raw_read5_ok hr]

lemma step_core_up_ok {bus : Bus} (hw : bus.writeFails = false) {st : Soft}
    {c : ℤ} (hc : st.current_freq = some c) (hc0 : c ≠ 0) :
    step_core st bus "up"
      = ({ st with current_freq := some (clamp_freq (c + 100)) },
         { bus with chip :=
            set_frequency_frame (clamp_freq (c + 100)) false (!st.forced_mono) DE_EMPHASIS },
         .ok (clamp_freq (c + 100))) := by
  simp [step_core, hc, hc0, set_frequency_ok hw, STEP]

lemma step_core_down_ok {bus : Bus} (hw : bus.writeFails = false) {st : Soft}
    {c : ℤ} (hc : st.current_freq = some c) (hc0 : c ≠ 0) :
    step_core st bus "down"
      = ({ st with current_freq := some (clamp_freq (c - 100)) },
         { bus with chip :=
            set_frequency_frame (clamp_freq (c - 100)) false (!st.forced_mono) DE_EMPHASIS },
         .ok (clamp_freq (c - 100))) := by
  simp [step_core, hc, hc0, set_frequency_ok hw, STEP,
    (by decide : ¬ ("down" : String) = "up"), sub_eq_add_neg]

lemma stepN_up (st : Soft) (bus : Bus) (f : ℤ) (hw : bus.writeFails = false)
    (hc : st.current_freq = some f) (hlo : 87500 ≤ f) (hhi : f ≤ 108000)
    (hdvd : (100 : ℤ) ∣ f) (n : ℕ) :
    ∃ r : Soft × Bus, stepN st bus "up" n = some r ∧
      r.1.current_freq = some (min 108000 (f + 100 * n)) ∧
      r.2.writeFails = false := by
  induction n with
  | zero =>
    refine ⟨(st, bus), rfl, ?_, hw⟩
    show st.current_freq = _
    rw [hc]
    congr 1
    omega
  | succ n ih =>
    obtain ⟨r, hr, h1, h2⟩ := ih
    have hne : min 108000 (f + 100 * (n : ℤ)) ≠ 0 := by omega
    have hstep := step_core_up_ok h2 h1 hne
    have hd : (100 : ℤ) ∣ min 108000 (f + 100 * (n : ℤ)) + 100 := by omega
    refine ⟨((step_core r.1 r.2 "up").1, (step_core r.1 r.2 "up").2.1),
            ?_, ?_, ?_⟩
    · rw [stepN, hr]
      show (match step r.1 r.2 "up" with
            | none => none
            | some r' => some (r'.1, r'.2.1)) = _
      rw [step_some h1]
    · show (step_core r.1 r.2 "up").1.current_freq = _
      rw [hstep]
      show some (clamp_freq _) = _
      rw [clamp_freq_of_dvd hd]
      congr 1
      push_cast
      omega
    · show (step_core r.1 r.2 "up").2.1.writeFails = _
      rw [hstep]
      exact h2

lemma stepN_down (st : Soft) (bus : Bus) (f : ℤ) (hw : bus.writeFails = false)
    (hc : st.current_freq = some f) (hlo : 87500 ≤ f) (hhi : f ≤ 108000)
    (hdvd : (100 : ℤ) ∣ f) (n : ℕ) :
    ∃ r : Soft × Bus, stepN st bus "down" n = some r ∧
      r.1.current_freq = some (max 87500 (f - 100 * n)) ∧
      r.2.writeFails = false := by
  induction n with
  | zero =>
    refine ⟨(st, bus), rfl, ?_, hw⟩
    show st.current_freq = _
    rw [hc]
    congr 1
    omega
  | succ n ih =>
    obtain ⟨r, hr, h1, h2⟩ := ih
    have hne : max 87500 (f - 100 * (n : ℤ)) ≠ 0 := by omega
    have hstep := step_core_down_ok h2 h1 hne
    have hd : (100 : ℤ) ∣ max 87500 (f - 100 * (n : ℤ)) - 100 := by omega
    refine ⟨((step_core r.1 r.2 "down").1, (step_core r.1 r.2 "down").2.1),
            ?_, ?_, ?_⟩
    · rw [stepN, hr]
      show (match step r.1 r.2 "down" with
            | none => none
            | some r' => some (r'.1, r'.2.1)) = _
      rw [step_some h1]
    · show (step_core r.1 r.2 "down").1.current_freq = _
      rw [hstep]
      show some (clamp_freq _) = _
      rw [clamp_freq_of_dvd hd]
      congr 1
      push_cast
      omega
    · show (step_core r.1 r.2 "down").2.1.writeFails = _
      rw [hstep]
      exact h2

/-- C3: out-of-range tuning clamps rather than failing (`tune_to(200.0)`
returns 108.0, `tune_to(10.0)` returns 87.5), and from any state holding an
in-band 0.1-quantized frequency `f`, iterated stepping saturates at the band
edges: `n` up-steps leave `min(108.0, f + 0.1·n)` committed and `n`
down-steps `max(87.5, f − 0.1·n)` — the committed frequency never exceeds a
band edge and never wraps to the opposite edge. -/
theorem clamp_and_step_saturation :
    (∀ st bus, bus.writeFails = false →
      (tune_to st bus 200000).2.2 = .ok 108000 ∧
      (tune_to st bus 200000).1.current_freq = some 108000 ∧
      (tune_to st bus 10000).2.2 = .ok 87500 ∧
      (tune_to st bus 10000).1.current_freq = some 87500) ∧
    (∀ st bus f, bus.writeFails = false → st.current_freq = some f →
      87500 ≤ f → f ≤ 108000 → (100 : ℤ) ∣ f → ∀ n : ℕ,
      (∃ r : Soft × Bus, stepN st bus "up" n = some r ∧
        r.1.current_freq = some (min 108000 (f + 100 * n))) ∧
      (∃ r : Soft × Bus, stepN st bus "down" n = some r ∧
        r.1.current_freq = some (max 87500 (f - 100 * n)))) := by
  constructor
  · intro st bus hw
    have h200 : clamp_freq 200000 = 108000 := by decide
    have h10 : clamp_freq 10000 = 87500 := by decide
    rw [tune_to_ok hw, tune_to_ok hw, h200, h10]
    exact ⟨rfl, rfl, rfl, rfl⟩
  · intro st bus f hw hc hlo hhi hdvd n
    obtain ⟨r, hr, h1, _⟩ := stepN_up st bus f hw hc hlo hhi hdvd n
    obtain ⟨r', hr', h1', _⟩ := stepN_down st bus f hw hc hlo hhi hdvd n
    exact ⟨⟨r, hr, h1⟩, ⟨r', hr', h1'⟩⟩

/-- Witness for C3: a concrete run from 107.9 MHz — three up-steps complete
and saturate at 108.0 MHz, and `tune_to(200.0)` commits 108.0 MHz. -/
theorem clamp_and_step_saturation_witness :
    (∃ r : Soft × Bus,
      stepN ⟨some 107900, false, false⟩ ⟨⟨0, 0, 0, 0, 0⟩, false, false⟩ "up" 3
          = some r ∧
      r.1.current_freq = some 108000) ∧
    (tune_to ⟨none, false, false⟩ ⟨⟨0, 0, 0, 0, 0⟩, false, false⟩ 200000).2.2
        = .ok 108000 := by
  constructor
  · obtain ⟨r, hr, hcf⟩ := (clamp_and_step_saturation.2 ⟨some 107900, false, false⟩
      ⟨⟨0, 0, 0, 0, 0⟩, false, false⟩ 107900 rfl rfl (by decide) (by decide)
      (by decide) 3).1
    refine ⟨r, hr, ?_⟩
    rw [hcf]
    decide
  · exact (clamp_and_step_saturation.1 ⟨none, false, false⟩
      ⟨⟨0, 0, 0, 0, 0⟩, false, false⟩ rfl).1

-- ------------ C1 ------------

lemma read_status_ok {bus : Bus} (hr : bus.readFails = false) (st : Soft) :
    read_status st bus = .ok
      { if_ready := bus.chip.b0 &&& 0x80 != 0
        stereo := bus.chip.b2 &&& 0x80 != 0
        signal := (bus.chip.b3 >>> 4) &&& 0x0F
        frequency := decode_frequency bus.chip
        muted := st.muted
        raw := bus.chip } := by
  rw [read_status, raw_read5_ok hr]

lemma mute_ok {bus : Bus} (hr : bus.readFails = false)
    (hw : bus.writeFails = false) (st : Soft) :
    mute st bus
      = ({ st with muted := true },
         { bus with chip := apply_current_pll_frame bus.chip muteMod },
         .ok ()) := by
  rw [mute, apply_current_pll_ok hr hw]

lemma unmute_ok {bus : Bus} (hr : bus.readFails = false)
    (hw : bus.writeFails = false) (st : Soft) :
    unmute st bus
      = ({ st with muted := false },
         { bus with chip := apply_current_pll_frame bus.chip unmuteMod },
         .ok ()) := by
  rw [unmute, apply_current_pll_ok hr hw]

lemma set_forced_mono_ok {bus : Bus} (hr : bus.readFails = false)
    (hw : bus.writeFails = false) (st : Soft) (flag : Bool) :
    set_forced_mono st bus flag
      = ({ st with forced_mono := flag },
         { bus with chip :=
            apply_current_pll_frame bus.chip (if flag then monoMod else stereoMod) },
         .ok ()) := by
  cases flag <;>
    simp [set_forced_mono, set_mono, set_stereo, apply_current_pll_ok hr hw]

lemma step_core_shape {bus : Bus} (hw : bus.writeFails = false)
    (st : Soft) (d : String) :
    ∃ x, step_core st bus d
      = ({ st with current_freq := some (clamp_freq x) },
         { bus with chip :=
            set_frequency_frame (clamp_freq x) false (!st.forced_mono) DE_EMPHASIS },
         .ok (clamp_freq x)) := by
  refine ⟨(match st.current_freq with
            | none => 99800
            | some c => if c = 0 then 99800 else c)
          + (if d = "up" then STEP else -STEP), ?_⟩
  simp [step_core, set_frequency_ok hw]

lemma tune_to_freq_cases (st : Soft) (bus : Bus) (f : ℤ) :
    (tune_to st bus f).1 = st ∨
    (tune_to st bus f).1.current_freq = some (clamp_freq f) := by
  cases hw : bus.writeFails with
  | true => left; rw [tune_to_err hw]
  | false => right; rw [tune_to_ok hw]

lemma mute_freq (st : Soft) (bus : Bus) :
    (mute st bus).1.current_freq = st.current_freq := by
  rw [mute]
  cases apply_current_pll bus muteMod <;> rfl

lemma unmute_freq (st : Soft) (bus : Bus) :
    (unmute st bus).1.current_freq = st.current_freq := by
  rw [unmute]
  cases apply_current_pll bus unmuteMod <;> rfl

lemma set_forced_mono_freq (st : Soft) (bus : Bus) (flag : Bool) :
    (set_forced_mono st bus flag).1.current_freq = st.current_freq := by
  rw [set_forced_mono]
  cases (if flag then set_mono bus else set_stereo bus) <;> rfl

lemma step_freq_cases (st : Soft) (bus : Bus) (d : String)
    (r : Soft × Bus × Except BusError ℤ) (h : step st bus d = some r) :
    r.1 = st ∨ ∃ x, r.1.current_freq = some (clamp_freq x) := by
  cases hc : st.current_freq with
  | none =>
    cases hb : bus.readFails with
    | true =>
      rw [step_none_read_err hb hc d] at h
      obtain rfl := Option.some.inj h
      left
      rfl
    | false =>
      rw [step_none_deadlock hb hc d] at h
      exact Option.noConfusion h
  | some c =>
    rw [step_some hc] at h
    obtain rfl := Option.some.inj h
    cases hw : bus.writeFails with
    | true =>
      left
      simp [step_core, set_frequency, raw_write5_err hw]
    | false =>
      obtain ⟨x, hx⟩ := step_core_shape hw st d
      right
      exact ⟨x, by rw [hx]⟩

lemma runOp_preserves (op : Op) (st : Soft) (bus : Bus) (r : Soft × Bus)
    (hst : freqInvariant st) (h : runOp st bus op = some r) :
    freqInvariant r.1 := by
  cases op with
  | tuneTo f =>
    simp only [runOp] at h
    obtain rfl := Option.some.inj h
    show freqInvariant (tune_to st bus f).1
    rcases tune_to_freq_cases st bus f with he | he
    · rw [he]; exact hst
    · intro g hg
      rw [he] at hg
      obtain rfl := Option.some.inj hg
      exact clamp_freq_mem f
  | stepDir d =>
    simp only [runOp] at h
    cases hs : step st bus d with
    | none => rw [hs] at h; exact Option.noConfusion h
    | some r' =>
      rw [hs] at h
      obtain rfl := Option.some.inj h
      show freqInvariant r'.1
      rcases step_freq_cases st bus d r' hs with he | ⟨x, hx⟩
      · rw [he]; exact hst
      · intro g hg
        rw [hx] at hg
        obtain rfl := Option.some.inj hg
        exact clamp_freq_mem x
  | muteOp =>
    simp only [runOp] at h
    obtain rfl := Option.some.inj h
    intro g hg
    rw [show ((mute st bus).1, (mute st bus).2.1).1 = (mute st bus).1 from rfl,
      mute_freq st bus] at hg
    exact hst g hg
  | unmuteOp =>
    simp only [runOp] at h
    obtain rfl := Option.some.inj h
    intro g hg
    rw [show ((unmute st bus).1, (unmute st bus).2.1).1 = (unmute st bus).1 from rfl,
      unmute_freq st bus] at hg
    exact hst g hg
  | setForcedMono b =>
    simp only [runOp] at h
    obtain rfl := Option.some.inj h
    intro g hg
    rw [show ((set_forced_mono st bus b).1, (set_forced_mono st bus b).2.1).1
        = (set_forced_mono st bus b).1 from rfl, set_forced_mono_freq st bus b] at hg
    exact hst g hg
  | readStatusOp =>
    simp only [runOp] at h
    obtain rfl := Option.some.inj h
    exact hst

/-- C1: after any completed sequence of `tune_to`, `step`, `mute`, `unmute`,
`set_forced_mono`, `read_status` operations — with no assumption on bus
failures — `current_frequency`, when set, lies in `[87.5, 108.0]` MHz and is
quantized to 0.1 MHz steps: every completed assignment to the field commits
a `clamp_freq` output.  In particular this holds for `step`'s seeding path,
which never stores a value at all: its status read either raises, making the
`BusError` propagate with `current_frequency` still `None`, or the operation
blocks forever re-acquiring the non-reentrant state lock inside
`read_status` (no final state, modelled as `none`) before the seed
assignment is reached. -/
theorem freq_invariant_all_runs :
    (∀ ops : List Op, ∀ st bus r, freqInvariant st →
      runOps st bus ops = some r → freqInvariant r.1) ∧
    (∀ st bus d, st.current_freq = none →
      step st bus d = none ∨ step st bus d = some (st, bus, .error .busError)) := by
  constructor
  · intro ops
    induction ops with
    | nil =>
      intro st bus r h hr
      obtain rfl := Option.some.inj hr
      exact h
    | cons op rest ih =>
      intro st bus r h hr
      simp only [runOps] at hr
      cases hop : runOp st bus op with
      | none => rw [hop] at hr; exact Option.noConfusion hr
      | some r1 =>
        rw [hop] at hr
        exact ih r1.1 r1.2 r (runOp_preserves op st bus r1 h hop) hr
  · intro st bus d hc
    cases hb : bus.readFails with
    | false => left; exact step_none_deadlock hb hc d
    | true => right; exact step_none_read_err hb hc d

/-- Witness for C1 on a concrete completed run (tune to 96.6 MHz, one
up-step, mute) ending at 96.7 MHz. -/
theorem freq_invariant_all_runs_witness :
    freqInvariant (⟨some 96700, false, true⟩ : Soft) :=
  freq_invariant_all_runs.1 [.tuneTo 96600, .stepDir "up", .muteOp]
    ⟨none, false, false⟩ ⟨⟨0, 0, 0, 0, 0⟩, false, false⟩
    (⟨some 96700, false, true⟩, ⟨⟨174, 55, 176, 16, 0⟩, false, false⟩)
    (fun _ h => Option.noConfusion h) rfl

-- ------------ C4 ------------

lemma and63_and127 (x : ℕ) : (x &&& 63) &&& 127 = x &&& 63 := by
  rw [Nat.and_assoc]
  congr 1

/-- C4: `mute`/`unmute` preserve the PLL bits of the frame just read (byte0
bits 5..0 and byte1 verbatim in the written frame) and update only the soft
muted flag; consequently, after `tune_to(96.6)`, `mute()`, `unmute()`, a
status read decodes the same frequency the tune committed (within 0.05 MHz
of 96.6) and reports `muted = false`. -/
theorem mute_unmute_preserve_pll :
    (∀ s : Frame,
      (apply_current_pll_frame s muteMod).b0 &&& 0x3F = s.b0 &&& 0x3F ∧
      (apply_current_pll_frame s muteMod).b1 = s.b1 ∧
      (apply_current_pll_frame s unmuteMod).b0 &&& 0x3F = s.b0 &&& 0x3F ∧
      (apply_current_pll_frame s unmuteMod).b1 = s.b1) ∧
    (∀ st bus, bus.readFails = false → bus.writeFails = false →
      (mute st bus).1 = { st with muted := true } ∧
      (unmute st bus).1 = { st with muted := false }) ∧
    (runOps ⟨none, false, false⟩ ⟨⟨0, 0, 0, 0, 0⟩, false, false⟩
        [.tuneTo 96600, .muteOp, .unmuteOp]
      = some (⟨some 96600, false, false⟩, ⟨⟨46, 43, 176, 16, 0⟩, false, false⟩) ∧
      read_status ⟨some 96600, false, false⟩ ⟨⟨46, 43, 176, 16, 0⟩, false, false⟩
      = .ok { if_ready := false, stereo := true, signal := 1,
              frequency := 96596, muted := false, raw := ⟨46, 43, 176, 16, 0⟩ } ∧
      ((96596 : ℤ) - 96600).natAbs ≤ 50 ∧
      decode_frequency (set_frequency_frame 96600 false true 50) = 96596) := by
  refine ⟨?_, ?_, rfl, rfl, by decide, rfl⟩
  · intro s
    refine ⟨?_, rfl, ?_, rfl⟩
    · exact lor128_and63 _ (and63_lt s.b0)
    · show ((s.b0 &&& 63) &&& 127) &&& 63 = s.b0 &&& 63
      rw [and63_and127, and63_and63]
  · intro st bus hr hw
    rw [mute_ok hr hw, unmute_ok hr hw]
    exact ⟨rfl, rfl⟩

/-- Witness for C4 at a concrete state and bus. -/
theorem mute_unmute_preserve_pll_witness :
    (mute ⟨none, false, false⟩ ⟨⟨0, 0, 0, 0, 0⟩, false, false⟩).1
        = (⟨none, false, true⟩ : Soft) ∧
    (unmute ⟨none, false, true⟩ ⟨⟨0, 0, 0, 0, 0⟩, false, false⟩).1
        = (⟨none, false, false⟩ : Soft) :=
  ⟨(mute_unmute_preserve_pll.2.1 ⟨none, false, false⟩
      ⟨⟨0, 0, 0, 0, 0⟩, false, false⟩ rfl rfl).1,
   (mute_unmute_preserve_pll.2.1 ⟨none, false, true⟩
      ⟨⟨0, 0, 0, 0, 0⟩, false, false⟩ rfl rfl).2⟩

-- ------------ C5 ------------

/-- Counterexample to C5 as stated: starting from a chip register whose
last-written frame has the mute bit set (`b0 = 174`, as `mute()` leaves it
after a tune to 96.6 MHz), `set_forced_mono(true)` writes a frame with the
mute bit cleared — the chip's mute bit as last written is not preserved. -/
theorem set_forced_mono_mute_bit_cex :
    ((⟨174, 43, 176, 16, 0⟩ : Frame).b0 &&& 0x80 = 0x80) ∧
    (set_forced_mono ⟨some 96600, false, true⟩
        ⟨⟨174, 43, 176, 16, 0⟩, false, false⟩ true).2.1.chip.b0 &&& 0x80 = 0 :=
  ⟨rfl, rfl⟩

/-- C5 (amended): `set_forced_mono(flag)` sets the `forced_mono` soft flag,
writes a frame whose stereo-enable bit (byte2 bit 7) is cleared when `flag`
and set otherwise, preserves the PLL bits of the read frame and leaves the
soft `muted` flag and `current_frequency` unchanged; the written frame's
mute bit, however, is always clear (readback does not expose mute), so a
previously written chip-level mute is undone. -/
theorem set_forced_mono_effect :
    ∀ st bus flag, bus.readFails = false → bus.writeFails = false →
      (set_forced_mono st bus flag).1.forced_mono = flag ∧
      (set_forced_mono st bus flag).1.muted = st.muted ∧
      (set_forced_mono st bus flag).1.current_freq = st.current_freq ∧
      (set_forced_mono st bus flag).2.1.chip.b0 &&& 0x3F = bus.chip.b0 &&& 0x3F ∧
      (set_forced_mono st bus flag).2.1.chip.b1 = bus.chip.b1 ∧
      (set_forced_mono st bus flag).2.1.chip.b2 = (if flag then 0x30 else 0xB0) ∧
      (set_forced_mono st bus flag).2.1.chip.b0 &&& 0x80 = 0 ∧
      (set_forced_mono st bus flag).2.2 = .ok () := by
  intro st bus flag hr hw
  rw [set_forced_mono_ok hr hw]
  cases flag with
  | false =>
    refine ⟨rfl, rfl, rfl, and63_and63 bus.chip.b0, rfl, ?_,
            and63_and128 bus.chip.b0, rfl⟩
    show (176 : ℕ) ||| 128 = 176
    decide
  | true =>
    refine ⟨rfl, rfl, rfl, and63_and63 bus.chip.b0, rfl, ?_,
            and63_and128 bus.chip.b0, rfl⟩
    show (176 : ℕ) &&& 127 = 48
    decide

/-- Witness for C5 (amended) at a concrete muted state. -/
theorem set_forced_mono_effect_witness :
    (set_forced_mono ⟨some 96600, false, true⟩
        ⟨⟨174, 43, 176, 16, 0⟩, false, false⟩ true).1.muted = true ∧
    (set_forced_mono ⟨some 96600, false, true⟩
        ⟨⟨174, 43, 176, 16, 0⟩, false, false⟩ true).2.1.chip.b2 = 0x30 :=
  ⟨(set_forced_mono_effect ⟨some 96600, false, true⟩
      ⟨⟨174, 43, 176, 16, 0⟩, false, false⟩ true rfl rfl).2.1,
   (set_forced_mono_effect ⟨some 96600, false, true⟩
      ⟨⟨174, 43, 176, 16, 0⟩, false, false⟩ true rfl rfl).2.2.2.2.2.1⟩

-- ------------ C10 ------------

/-- C10: from any state with the soft muted flag set, `tune_to` writes a
frame whose mute bit (byte0 bit 7) is clear while leaving the soft flag
true, so a status read after `mute()` then `tune_to(f)` reports
`muted = true` although the most recent frame written to the chip cleared
the chip's mute bit; shown concretely for `mute()` then `tune_to(96.6)`. -/
theorem tune_to_mute_divergence :
    (∀ st bus f, st.muted = true → bus.writeFails = false →
      (tune_to st bus f).1.muted = true ∧
      (tune_to st bus f).2.1.chip.b0 &&& 0x80 = 0 ∧
      (bus.readFails = false →
        ∀ stt, read_status (tune_to st bus f).1 (tune_to st bus f).2.1 = .ok stt →
          stt.muted = true)) ∧
    (runOps ⟨none, false, false⟩ ⟨⟨0, 0, 0, 0, 0⟩, false, false⟩
        [.muteOp, .tuneTo 96600]
      = some (⟨some 96600, false, true⟩, ⟨⟨46, 43, 176, 16, 0⟩, false, false⟩) ∧
      read_status ⟨some 96600, false, true⟩ ⟨⟨46, 43, 176, 16, 0⟩, false, false⟩
      = .ok { if_ready := false, stereo := true, signal := 1,
              frequency := 96596, muted := true, raw := ⟨46, 43, 176, 16, 0⟩ }) := by
  refine ⟨?_, rfl, rfl⟩
  intro st bus f hm hw
  rw [tune_to_ok hw]
  refine ⟨hm, ?_, ?_⟩
  · simp only [set_frequency_frame]
    exact and63_and128 _
  · intro hr stt h
    have hr' : ({ bus with chip :=
        set_frequency_frame (clamp_freq f) false (!st.forced_mono) DE_EMPHASIS } : Bus).readFails
        = false := hr
    rw [read_status_ok hr'] at h
    obtain rfl := Except.ok.inj h
    exact hm

/-- Witness for C10 at a concrete muted state. -/
theorem tune_to_mute_divergence_witness :
    (tune_to ⟨none, false, true⟩ ⟨⟨128, 0, 176, 16, 0⟩, false, false⟩ 96600).1.muted
        = true ∧
    (tune_to ⟨none, false, true⟩
        ⟨⟨128, 0, 176, 16, 0⟩, false, false⟩ 96600).2.1.chip.b0 &&& 0x80 = 0 :=
  ⟨(tune_to_mute_divergence.1 ⟨none, false, true⟩
      ⟨⟨128, 0, 176, 16, 0⟩, false, false⟩ 96600 rfl rfl).1,
   (tune_to_mute_divergence.1 ⟨none, false, true⟩
      ⟨⟨128, 0, 176, 16, 0⟩, false, false⟩ 96600 rfl rfl).2.1⟩

-- ------------ C6 ------------

/-- Counterexample to C6 as stated: when the bus write inside
`set_forced_mono(true)` fails with `BusError`, the soft `forced_mono` flag
has nevertheless been updated to `true`. -/
theorem forced_mono_updated_on_bus_error_cex :
    (set_forced_mono ⟨none, false, false⟩ ⟨⟨0, 0, 0, 0, 0⟩, false, true⟩ true).2.2
      = .error .busError ∧
    (set_forced_mono ⟨none, false, false⟩ ⟨⟨0, 0, 0, 0, 0⟩, false, true⟩ true).1.forced_mono
      = true :=
  ⟨rfl, rfl⟩

/-- C6 (amended): for `mute`, `unmute`, `tune_to` and `step`, a failing bus
transaction propagates its `BusError` unchanged to the caller and leaves
every soft-state field untouched (in `step`'s seeding path, the failing
status read raises before any assignment is made); `set_forced_mono`,
however, assigns `forced_mono` before issuing its bus write, so that flag is
updated even when the transaction fails. -/
theorem error_paths_characterized :
    (∀ st bus f, bus.writeFails = true →
      tune_to st bus f = (st, bus, .error .busError)) ∧
    (∀ st bus, bus.readFails = true ∨ bus.writeFails = true →
      mute st bus = (st, bus, .error .busError) ∧
      unmute st bus = (st, bus, .error .busError)) ∧
    (∀ st bus d c, st.current_freq = some c → bus.writeFails = true →
      step st bus d = some (st, bus, .error .busError)) ∧
    (∀ st bus d, st.current_freq = none → bus.readFails = true →
      step st bus d = some (st, bus, .error .busError)) ∧
    (∀ st bus flag, bus.readFails = true ∨ bus.writeFails = true →
      set_forced_mono st bus flag
        = ({ st with forced_mono := flag }, bus, .error .busError)) :=
  ⟨fun st _ f hw => tune_to_err hw st f,
   fun st _ h => ⟨mute_err h st, unmute_err h st⟩,
   fun _ _ d _ hc hw => step_some_err hw hc d,
   fun _ _ d hc hb => step_none_read_err hb hc d,
   fun st _ flag h => set_forced_mono_err h st flag⟩

/-- Witness for C6 (amended): `tune_to` on a failing bus returns the error
and the untouched state. -/
theorem error_paths_characterized_witness :
    tune_to ⟨none, false, false⟩ ⟨⟨0, 0, 0, 0, 0⟩, false, true⟩ 96600
      = (⟨none, false, false⟩, ⟨⟨0, 0, 0, 0, 0⟩, false, true⟩, .error .busError) :=
  error_paths_characterized.1 ⟨none, false, false⟩
    ⟨⟨0, 0, 0, 0, 0⟩, false, true⟩ 96600 rfl

-- ------------ C7 ------------

/-- Counterexample to C7: encoding 200.0 MHz — far outside `[87.5, 108.0]`
— does not fail with `InvalidFrequency` (or anything else): `set_frequency`
builds a frame (the PLL word silently truncated to the available bits) and
performs the write. -/
theorem encode_out_of_band_no_error_cex :
    (108000 : ℤ) < 200000 ∧
    set_frequency ⟨⟨0, 0, 0, 0, 0⟩, false, false⟩ 200000 false true 50
      = .ok ⟨⟨31, 121, 176, 16, 0⟩, false, false⟩ :=
  ⟨by decide, rfl⟩

/-- C7 (amended): the codec performs no band validation and defines no
`InvalidFrequency` error: for every input frequency, in-band or not, it
produces a well-formed 5-byte frame (every byte < 256) and succeeds; the
only possible failure of `set_frequency` is a bus write error. -/
theorem set_frequency_total :
    ∀ bus f m s d, bus.writeFails = false →
      set_frequency bus f m s d
        = .ok { bus with chip := set_frequency_frame f m s d } ∧
      (set_frequency_frame f m s d).b0 < 256 ∧
      (set_frequency_frame f m s d).b1 < 256 ∧
      (set_frequency_frame f m s d).b2 < 256 ∧
      (set_frequency_frame f m s d).b3 < 256 ∧
      (set_frequency_frame f m s d).b4 < 256 := by
  intro bus f m s d hw
  refine ⟨set_frequency_ok hw f m s d, ?_, ?_, ?_, ?_, ?_⟩
  · simp only [set_frequency_frame]
    cases m with
    | true => exact lor128_lt256 _ (and63_lt _)
    | false => exact Nat.lt_trans (and63_lt _) (by decide)
  · simp only [set_frequency_frame]
    exact Nat.lt_succ_of_le Nat.and_le_right
  · simp only [set_frequency_frame]
    cases s <;> decide
  · simp only [set_frequency_frame]
    split <;> decide
  · simp only [set_frequency_frame]
    decide

/-- Witness for C7 (amended) at the out-of-band frequency 200.0 MHz. -/
theorem set_frequency_total_witness :
    set_frequency ⟨⟨0, 0, 0, 0, 0⟩, false, false⟩ 200000 false true 50
      = .ok { chip := set_frequency_frame 200000 false true 50,
              readFails := false, writeFails := false } ∧
    (set_frequency_frame 200000 false true 50).b0 < 256 ∧
    (set_frequency_frame 200000 false true 50).b1 < 256 ∧
    (set_frequency_frame 200000 false true 50).b2 < 256 ∧
    (set_frequency_frame 200000 false true 50).b3 < 256 ∧
    (set_frequency_frame 200000 false true 50).b4 < 256 :=
  set_frequency_total ⟨⟨0, 0, 0, 0, 0⟩, false, false⟩ 200000 false true 50 rfl

-- ------------ C9 ------------

lemma minAbsKey_mem (f hd : ℤ) (tl : List ℤ) : minAbsKey f hd tl ∈ hd :: tl := by
  induction tl generalizing hd with
  | nil => simp [minAbsKey]
  | cons a tl ih =>
    have h := ih (if (a - f).natAbs < (hd - f).natAbs then a else hd)
    rcases List.mem_cons.mp h with h1 | h1
    · show minAbsKey f (if (a - f).natAbs < (hd - f).natAbs then a else hd) tl
        ∈ hd :: a :: tl
      rw [h1]
      split
      · exact List.mem_cons_of_mem _ (List.mem_cons_self _ _)
      · exact List.mem_cons_self _ _
    · exact List.mem_cons_of_mem _ (List.mem_cons_of_mem _ h1)

lemma minAbsKey_min (f hd : ℤ) (tl : List ℤ) :
    ∀ x ∈ hd :: tl, (minAbsKey f hd tl - f).natAbs ≤ (x - f).natAbs := by
  induction tl generalizing hd with
  | nil =>
    intro x hx
    rcases List.mem_cons.mp hx with rfl | hx'
    · exact le_refl _
    · exact absurd hx' (List.not_mem_nil x)
  | cons a tl ih =>
    intro x hx
    have hroot := ih (if (a - f).natAbs < (hd - f).natAbs then a else hd)
      _ (List.mem_cons_self _ _)
    have hle : (((if (a - f).natAbs < (hd - f).natAbs then a else hd) : ℤ) - f).natAbs
          ≤ (hd - f).natAbs ∧
        (((if (a - f).natAbs < (hd - f).natAbs then a else hd) : ℤ) - f).natAbs
          ≤ (a - f).natAbs := by
      split
      · exact ⟨Nat.le_of_lt (by assumption), le_refl _⟩
      · exact ⟨le_refl _, Nat.le_of_not_lt (by assumption)⟩
    rcases List.mem_cons.mp hx with rfl | hx'
    · exact le_trans hroot hle.1
    · rcases List.mem_cons.mp hx' with rfl | hx''
      · exact le_trans hroot hle.2
      · exact ih _ x (List.mem_cons_of_mem _ hx'')

lemma presetIndex_of_mem :
    ∀ (table : List (ℤ × String)) (p : ℤ × String), p ∈ table →
      (table.map Prod.fst).Nodup → presetIndex table p.1 = p.2 := by
  intro table
  induction table with
  | nil => exact fun p hp _ => absurd hp (List.not_mem_nil p)
  | cons q rest ih =>
    intro p hp hnd
    rw [List.map_cons, List.nodup_cons] at hnd
    rcases List.mem_cons.mp hp with rfl | hp'
    · simp [presetIndex]
    · have hq : ¬ q.1 = p.1 := by
        intro he
        exact hnd.1 (he ▸ List.mem_map_of_mem Prod.fst hp')
      have hstep : presetIndex (q :: rest) p.1 = presetIndex rest p.1 := by
        simp [presetIndex, List.find?_cons, hq]
      rw [hstep]
      exact ih p hp' hnd.2

/-- C9: preset resolution is nearest-match within ±0.05 MHz (50 kHz): on a
table with pairwise-distinct keys holding some entry within tolerance, the
result is the name of an entry at minimal distance; when no entry is within
tolerance (in particular on the empty table) the result is "Unknown";
concretely, on `{96.6: "A", 99.8: "B"}`, 96.62 resolves to "A" and 98.0 to
"Unknown". -/
theorem station_name_for_spec :
    (∀ (table : List (ℤ × String)) (f : ℤ), (table.map Prod.fst).Nodup →
      (∃ q ∈ table, ((q : ℤ × String).1 - f).natAbs ≤ 50) →
      ∃ p ∈ table,
        (∀ r ∈ table,
          ((p : ℤ × String).1 - f).natAbs ≤ ((r : ℤ × String).1 - f).natAbs) ∧
        station_name_for table f = p.2) ∧
    (∀ (table : List (ℤ × String)) (f : ℤ),
      (∀ q ∈ table, 50 < ((q : ℤ × String).1 - f).natAbs) →
      station_name_for table f = "Unknown") ∧
    (∀ f : ℤ, station_name_for [] f = "Unknown") ∧
    station_name_for [(96600, "A"), (99800, "B")] 96620 = "A" ∧
    station_name_for [(96600, "A"), (99800, "B")] 98000 = "Unknown" := by
  refine ⟨?_, ?_, fun f => rfl, rfl, rfl⟩
  · intro table f hnd hex
    obtain ⟨q, hq, hq50⟩ := hex
    cases table with
    | nil => exact absurd hq (List.not_mem_nil q)
    | cons a rest =>
      have hmem := minAbsKey_mem f a.1 (rest.map Prod.fst)
      have hmin := minAbsKey_min f a.1 (rest.map Prod.fst)
      have hmem' : minAbsKey f a.1 (rest.map Prod.fst) ∈ (a :: rest).map Prod.fst :=
        hmem
      obtain ⟨p, hp, hp1⟩ := List.mem_map.mp hmem'
      have hcond : (minAbsKey f a.1 (rest.map Prod.fst) - f).natAbs ≤ 50 :=
        le_trans (hmin q.1 (List.mem_map_of_mem Prod.fst hq)) hq50
      refine ⟨p, hp, ?_, ?_⟩
      · intro r hr
        rw [hp1]
        exact hmin r.1 (List.mem_map_of_mem Prod.fst hr)
      · show (if (minAbsKey f a.1 (rest.map Prod.fst) - f).natAbs ≤ 50
              then presetIndex (a :: rest) (minAbsKey f a.1 (rest.map Prod.fst))
              else "Unknown") = p.2
        rw [if_pos hcond, ← hp1]
        exact presetIndex_of_mem (a :: rest) p hp hnd
  · intro table f hall
    cases table with
    | nil => rfl
    | cons a rest =>
      have hmem' : minAbsKey f a.1 (rest.map Prod.fst) ∈ (a :: rest).map Prod.fst :=
        minAbsKey_mem f a.1 (rest.map Prod.fst)
      obtain ⟨p, hp, hp1⟩ := List.mem_map.mp hmem'
      have hgt : 50 < (minAbsKey f a.1 (rest.map Prod.fst) - f).natAbs := by
        rw [← hp1]
        exact hall p hp
      show (if (minAbsKey f a.1 (rest.map Prod.fst) - f).natAbs ≤ 50
            then presetIndex (a :: rest) (minAbsKey f a.1 (rest.map Prod.fst))
            else "Unknown") = "Unknown"
      rw [if_neg (by omega)]

/-- Witness for C9 at the concrete table and query of the claim. -/
theorem station_name_for_spec_witness :
    station_name_for [(96600, "A"), (99800, "B")] 98000 = "Unknown" :=
  station_name_for_spec.2.1 [(96600, "A"), (99800, "B")] 98000 (by decide)

-- ------------ C8 ------------

/-- Counterexample to C8 as stated: `mute`'s trace does not hold the state
lock for its full duration — the bus read-modify-write runs before the state
lock is acquired (only the `_muted` assignment is under it). -/
theorem state_lock_not_held_cex :
    wrappedInStateLock (mute_tr ⟨0, 0, 0, 0, 0⟩) = false := rfl

/-- C8 (amended): `tune_to` and `step` hold the state lock for their whole
trace, but `mute`/`unmute` perform their bus transactions before acquiring
it and `set_forced_mono` never acquires it at all; every bus transaction of
every operation is a serialized `lock, open, address, transfer, close,
unlock` block under the single bus lock; additionally `step`'s seeding path
re-acquires the held (non-reentrant) state lock inside `read_status`. -/
theorem lock_discipline :
    (∀ st f, wrappedInStateLock (tune_to_tr st f) = true) ∧
    (∀ st s d, wrappedInStateLock (step_tr st s d) = true) ∧
    (∀ s, wrappedInStateLock (mute_tr s) = false) ∧
    (∀ s, wrappedInStateLock (unmute_tr s) = false) ∧
    (∀ s flag, wrappedInStateLock (set_forced_mono_tr s flag) = false ∧
      Ev.lockState ∉ set_forced_mono_tr s flag) ∧
    (∀ fm mu s d, relocksState (step_tr ⟨none, fm, mu⟩ s d) false = true) ∧
    (∀ st f, busSerialized (tune_to_tr st f) = true) ∧
    (∀ st s d, busSerialized (step_tr st s d) = true) ∧
    (∀ s, busSerialized (mute_tr s) = true ∧ busSerialized (unmute_tr s) = true) ∧
    (∀ s flag, busSerialized (set_forced_mono_tr s flag) = true) := by
  refine ⟨fun st f => rfl, ?_, fun s => rfl, fun s => rfl, ?_, fun fm mu s d => rfl,
          fun st f => rfl, ?_, fun s => ⟨rfl, rfl⟩, ?_⟩
  · intro st s d
    obtain ⟨cf, fm, mu⟩ := st
    cases cf <;> rfl
  · intro s flag
    refine ⟨rfl, ?_⟩
    simp [set_forced_mono_tr, raw_read5_tr, raw_write5_tr]
  · intro st s d
    obtain ⟨cf, fm, mu⟩ := st
    cases cf <;> rfl
  · intro s flag
    rfl

end Radio
